import Mathlib

/-!
# Verification of the `rust-uinput` capability builder and device writer

Shallow embedding of `src/device/builder.rs` and `src/device/device.rs`.

The code drives a kernel control channel through an open file descriptor:
capability-registration ioctls (`ui_set_evbit`, `ui_set_keybit`,
`ui_set_relbit`, `ui_set_absbit`), a descriptor write, `ui_dev_create`,
event-record writes, and `ui_dev_destroy`.  We model every such external
call as a `Syscall` value appended to an explicit trace, and the kernel's
success/failure decision as an environment `Env` mapping the position of a
call in the trace to its outcome (`none` = success, `some e` = failure
with errno `e`).  Machine integers are modelled as `Int`/`Nat` with
explicit `% 2^16` where the code casts (`as u16`); fallible Rust code
returning `Result` becomes `Except Err`, and a Rust `panic` (the
`Option::unwrap` in `max`/`min`/`fuzz`/`flat`) becomes `Option.none`.
-/

namespace Uinput

/-- Errors surfaced by the builder/device operations: `CString::new`'s
interior-NUL error, or an OS errno propagated from a failing call. -/
inductive Err
  | nul
  | errno (e : Int)
  deriving DecidableEq, Repr

/-- One external call issued on the control-channel file descriptor.
`writeRecord` carries the `(kind, code, value)` fields of the
`input_event` record written by `Device::write` (after the `as u16`
casts); the timestamp filled in by `gettimeofday` is not modelled. -/
inductive Syscall
  | setEvbit (fd kind : Int)
  | setKeybit (fd code : Int)
  | setRelbit (fd code : Int)
  | setAbsbit (fd code : Int)
  | writeDescriptor (fd : Int)
  | devCreate (fd : Int)
  | writeRecord (fd kind code value : Int)
  | devDestroy (fd : Int)
  | closeCall (fd : Int)
  deriving DecidableEq, Repr

abbrev Trace := List Syscall

/-- The kernel side: decides the outcome of the n-th external call of a
run (`none` = success, `some e` = failure with errno `e`). -/
structure Env where
  res : Nat → Option Int

/-- Issue one external call: it is appended to the trace and its outcome
is taken from the environment at the call's position in the trace. -/
def issue (env : Env) (t : Trace) (s : Syscall) : Except Err Unit × Trace :=
  (match env.res t.length with
    | none => Except.ok ()
    | some e => Except.error (Err.errno e),
   t ++ [s])

/-- `input_id` (bus/vendor/product/version, each a `u16`). -/
structure input_id where
  bustype : Nat
  vendor : Nat
  product : Nat
  version : Nat

/-- `uinput_user_dev`: the fixed-layout descriptor.  The name buffer and
the four absolute-axis arrays are modelled as total maps (the Rust struct
is `mem::zeroed()` at construction, so unwritten entries read 0). -/
structure uinput_user_dev where
  name : Nat → Nat
  id : input_id
  ff_effects_max : Nat
  absmax : Int → Int
  absmin : Int → Int
  absfuzz : Int → Int
  absflat : Int → Int

/-- The all-zero descriptor produced by `mem::zeroed()` in `Builder::open`. -/
def zeroDev : uinput_user_dev :=
  { name := fun _ => 0
    id := { bustype := 0, vendor := 0, product := 0, version := 0 }
    ff_effects_max := 0
    absmax := fun _ => 0
    absmin := fun _ => 0
    absfuzz := fun _ => 0
    absflat := fun _ => 0 }

/-- `Builder { fd, def, abs }`.  The Rust field `def` is a Lean keyword,
so it is named `defn` here. -/
structure Builder where
  fd : Int
  defn : uinput_user_dev
  abs : Option Int

/-- `Builder::open` after a successful `fcntl::open` returning `fd`:
the descriptor is zeroed and no absolute axis is selected.  (The open
call itself only produces the fd and is not needed by any claim.) -/
def Builder.openB (fd : Int) : Builder :=
  { fd := fd, defn := zeroDev, abs := none }

/-- `UINPUT_MAX_NAME_SIZE`.  Modelled from the spec: the constant lives in
the external `ffi` crate, not under `src/`; the spec fixes the name field
as a bounded buffer of 80 bytes. -/
def UINPUT_MAX_NAME_SIZE : Nat := 80

/-- `nix::errno::Errno::EINVAL` as a raw errno (Linux value 22). -/
def EINVAL : Int := 22

/-- `Builder::name`: `CString::new` fails on an interior NUL byte; then
the NUL-terminated bytes must fit in the 80-byte buffer
(`bytes.len() > UINPUT_MAX_NAME_SIZE` is an `EINVAL` error); on success
the bytes are copied over the prefix of the name buffer. -/
def Builder.name (b : Builder) (value : List Nat) : Except Err Builder :=
  if 0 ∈ value then Except.error Err.nul
  else
    let bytes := value ++ [0]
    if bytes.length > UINPUT_MAX_NAME_SIZE then Except.error (Err.errno EINVAL)
    else Except.ok { b with defn := { b.defn with
      name := fun i => bytes.getD i (b.defn.name i) } }

/-- `Builder::bus`. -/
def Builder.bus (b : Builder) (value : Nat) : Builder :=
  { b with defn := { b.defn with id := { b.defn.id with bustype := value } } }

/-- `Builder::vendor`. -/
def Builder.vendor (b : Builder) (value : Nat) : Builder :=
  { b with defn := { b.defn with id := { b.defn.id with vendor := value } } }

/-- `Builder::product`. -/
def Builder.product (b : Builder) (value : Nat) : Builder :=
  { b with defn := { b.defn with id := { b.defn.id with product := value } } }

/-- `Builder::version`. -/
def Builder.version (b : Builder) (value : Nat) : Builder :=
  { b with defn := { b.defn with id := { b.defn.id with version := value } } }

/-- A concrete keyboard event, or the `Keyboard::All` pseudo-variant.
The event taxonomy (`src/event/`) is data external to the two source
files under `src/`; a concrete variant is represented by the
`(kind, code)` pair its `Kind`/`Code` impls resolve to. -/
inductive Keyboard
  | all
  | key (kind code : Int)

/-- A concrete controller event, or the `Controller::All` pseudo-variant. -/
inductive Controller
  | all
  | btn (kind code : Int)

/-- The `Event` union of `src/lib.rs` as consumed by `Builder::event`:
`All`, keyboard, controller, and concrete relative/absolute events
carrying their resolved `(kind, code)` pair. -/
inductive Event
  | all
  | keyboard (k : Keyboard)
  | controller (c : Controller)
  | relative (kind code : Int)
  | absolute (kind code : Int)

/-- Registration of one concrete key/button: the recursive
`builder.event(item)` call of the source on a concrete keyboard or
controller value.  `event` first clears `abs`, then issues
`ui_set_evbit` and `ui_set_keybit`, short-circuiting on failure. -/
def eventKeyLike (env : Env) (p : Int × Int) (b : Builder) (t : Trace) :
    Except Err Builder × Trace :=
  let b1 : Builder := { b with abs := none }
  let t1 := t ++ [Syscall.setEvbit b1.fd p.1]
  match env.res t.length with
  | some e => (Except.error (Err.errno e), t1)
  | none =>
    let t2 := t1 ++ [Syscall.setKeybit b1.fd p.2]
    match env.res t1.length with
    | some e => (Except.error (Err.errno e), t2)
    | none => (Except.ok b1, t2)

/-- The `for item in ...iter_variants() { builder = builder.event(item)? }`
loops of the `All` branches: register each enumerated `(kind, code)` in
order, stopping at the first failure. -/
def eventList (env : Env) (l : List (Int × Int)) (b : Builder) (t : Trace) :
    Except Err Builder × Trace :=
  match l with
  | [] => (Except.ok b, t)
  | p :: rest =>
    match eventKeyLike env p b t with
    | (Except.ok b1, t1) => eventList env rest b1 t1
    | (Except.error e, t1) => (Except.error e, t1)

/-- `Builder::event`.  `kb` and `ctl` are the full enumerations of the
keyboard and controller classes (the concatenated `iter_variants()`
sequences).  Modelled from the spec: the enumerations themselves live in
`src/event/`, which is not under `src/`; the spec describes them as the
class's known codes in a fixed, stable order.  The body follows the
source: `self.abs = None` first, then dispatch on the variant;
`Event::All` expands to keyboard-All then controller-All; concrete
variants issue `ui_set_evbit` then the class-specific bit call; a
successful `Absolute` registration sets `abs = Some(code)`. -/
def Builder.event (env : Env) (kb ctl : List (Int × Int)) (e : Event)
    (b : Builder) (t : Trace) : Except Err Builder × Trace :=
  let b1 : Builder := { b with abs := none }
  match e with
  | Event.all =>
    match eventList env kb b1 t with
    | (Except.ok b2, t1) => eventList env ctl b2 t1
    | (Except.error e1, t1) => (Except.error e1, t1)
  | Event.keyboard Keyboard.all => eventList env kb b1 t
  | Event.keyboard (Keyboard.key k c) => eventKeyLike env (k, c) b1 t
  | Event.controller Controller.all => eventList env ctl b1 t
  | Event.controller (Controller.btn k c) => eventKeyLike env (k, c) b1 t
  | Event.relative k c =>
    let t1 := t ++ [Syscall.setEvbit b1.fd k]
    match env.res t.length with
    | some e1 => (Except.error (Err.errno e1), t1)
    | none =>
      let t2 := t1 ++ [Syscall.setRelbit b1.fd c]
      match env.res t1.length with
      | some e1 => (Except.error (Err.errno e1), t2)
      | none => (Except.ok b1, t2)
  | Event.absolute k c =>
    let t1 := t ++ [Syscall.setEvbit b1.fd k]
    match env.res t.length with
    | some e1 => (Except.error (Err.errno e1), t1)
    | none =>
      let t2 := t1 ++ [Syscall.setAbsbit b1.fd c]
      match env.res t1.length with
      | some e1 => (Except.error (Err.errno e1), t2)
      | none => (Except.ok { b1 with abs := some c }, t2)

/-- `Builder::max`: `self.def.absmax[self.abs.unwrap() as usize] = value`.
The `unwrap()` panics when no absolute axis is selected; the panic is
modelled as `none`. -/
def Builder.max (b : Builder) (value : Int) : Option Builder :=
  b.abs.map fun a => { b with defn := { b.defn with
    absmax := fun i => if i = a then value else b.defn.absmax i } }

/-- `Builder::min`, same contract as `max`. -/
def Builder.min (b : Builder) (value : Int) : Option Builder :=
  b.abs.map fun a => { b with defn := { b.defn with
    absmin := fun i => if i = a then value else b.defn.absmin i } }

/-- `Builder::fuzz`, same contract as `max`. -/
def Builder.fuzz (b : Builder) (value : Int) : Option Builder :=
  b.abs.map fun a => { b with defn := { b.defn with
    absfuzz := fun i => if i = a then value else b.defn.absfuzz i } }

/-- `Builder::flat`, same contract as `max`. -/
def Builder.flat (b : Builder) (value : Int) : Option Builder :=
  b.abs.map fun a => { b with defn := { b.defn with
    absflat := fun i => if i = a then value else b.defn.absflat i } }

/-- `Device { fd }`. -/
structure Device where
  fd : Int

/-- `Builder::create`: write the descriptor, then `ui_dev_create`; on
success the fd is moved into a `Device`, on failure of either step the
error is returned. -/
def Builder.create (env : Env) (b : Builder) (t : Trace) :
    Except Err Device × Trace :=
  let t1 := t ++ [Syscall.writeDescriptor b.fd]
  match env.res t.length with
  | some e => (Except.error (Err.errno e), t1)
  | none =>
    let t2 := t1 ++ [Syscall.devCreate b.fd]
    match env.res t1.length with
    | some e => (Except.error (Err.errno e), t2)
    | none => (Except.ok { fd := b.fd }, t2)

/-- The calls issued when a `Builder` is dropped: `Builder` has no `Drop`
impl and its `fd` is a plain `c_int`, so dropping it issues no call at
all — in particular neither `close` nor `ui_dev_destroy`. -/
def Builder.dropRun (_b : Builder) : Trace := []

/-- `Device::write`: builds an `input_event` with `kind as u16`,
`code as u16` (two's-complement wrap, i.e. reduction mod 2^16) and
`value as i32` (the parameter is already an `i32`, so the cast is the
identity), and writes it to the fd. -/
def Device.write (env : Env) (d : Device) (kind code value : Int)
    (t : Trace) : Except Err Unit × Trace :=
  issue env t (Syscall.writeRecord d.fd (kind % 65536) (code % 65536) value)

/-- `EV_SYN` (from the `ffi` crate; Linux value). -/
def EV_SYN : Int := 0
/-- `SYN_REPORT` (from the `ffi` crate; Linux value). -/
def SYN_REPORT : Int := 0
/-- `EV_KEY` (from the `ffi` crate; Linux value). -/
def EV_KEY : Int := 1
/-- `EV_REL` (from the `ffi` crate; Linux value). -/
def EV_REL : Int := 2
/-- `EV_ABS` (from the `ffi` crate; Linux value). -/
def EV_ABS : Int := 3
/-- `REL_X` (from the `ffi` crate; Linux value). -/
def REL_X : Int := 0
/-- `REL_Y` (from the `ffi` crate; Linux value). -/
def REL_Y : Int := 1

/-- `Device::synchronize`: `write(EV_SYN, SYN_REPORT, 0)`. -/
def Device.synchronize (env : Env) (d : Device) (t : Trace) :
    Except Err Unit × Trace :=
  Device.write env d EV_SYN SYN_REPORT 0 t

/-- `Device::send`: resolve the event to its `(kind, code)` pair and
write it with the given value.  A concrete event is represented by its
resolved pair. -/
def Device.send (env : Env) (d : Device) (e : Int × Int) (value : Int)
    (t : Trace) : Except Err Unit × Trace :=
  Device.write env d e.1 e.2 value t

/-- `Device::press`: write value 1. -/
def Device.press (env : Env) (d : Device) (e : Int × Int) (t : Trace) :
    Except Err Unit × Trace :=
  Device.write env d e.1 e.2 1 t

/-- `Device::release`: write value 0. -/
def Device.release (env : Env) (d : Device) (e : Int × Int) (t : Trace) :
    Except Err Unit × Trace :=
  Device.write env d e.1 e.2 0 t

/-- `Device::click`: `press(event)?; release(event)?`. -/
def Device.click (env : Env) (d : Device) (e : Int × Int) (t : Trace) :
    Except Err Unit × Trace :=
  match Device.press env d e t with
  | (Except.ok _, t1) => Device.release env d e t1
  | (Except.error e1, t1) => (Except.error e1, t1)

/-- `Device::position`: same record as `send`. -/
def Device.position (env : Env) (d : Device) (e : Int × Int) (value : Int)
    (t : Trace) : Except Err Unit × Trace :=
  Device.write env d e.1 e.2 value t

/-- `impl Drop for Device`: one unconditional `ui_dev_destroy(self.fd)`. -/
def Device.dropRun (d : Device) : Trace := [Syscall.devDestroy d.fd]

/-- A caller's send loop: each `(kind, code, value)` triple is written in
turn; a failing write leaves the device live and the caller continues
(the source has no error state, a failed `send` is retryable). -/
def Device.runSends (env : Env) (d : Device) (cmds : List (Int × Int × Int))
    (t : Trace) : Trace :=
  match cmds with
  | [] => t
  | (k, c, v) :: rest => Device.runSends env d rest (Device.write env d k c v t).2

/-- A whole device lifetime: some sends (succeeding or failing), then the
`Drop` impl runs. -/
def Device.lifetime (env : Env) (d : Device) (cmds : List (Int × Int × Int)) :
    Trace :=
  Device.runSends env d cmds [] ++ Device.dropRun d

/-- Number of `ui_dev_destroy` calls in a trace. -/
def destroyCount (t : Trace) : Nat :=
  t.countP fun s => match s with
    | Syscall.devDestroy _ => true
    | _ => false

/-! ### Concrete values used by witnesses and counterexamples -/

/-- An environment in which every external call succeeds. -/
def envOK : Env := { res := fun _ => none }

/-- An environment in which every external call fails with errno 5. -/
def envFail : Env := { res := fun _ => some 5 }

/-- A device on fd 3. -/
def dev0 : Device := { fd := 3 }

/-- A builder on fd 3 whose currently configured absolute axis is 5. -/
def b5 : Builder := { fd := 3, defn := zeroDev, abs := some 5 }

/-! ### Claims -/

/-- **C1.** For every Builder whose currently configured absolute axis is
unset, calling `max`/`min`/`fuzz`/`flat` is rejected (the source's
`self.abs.unwrap()` panics, modelled as `none`) rather than silently
writing to an undefined descriptor index; and both `open` and a
non-absolute event registration leave the axis unset. -/
theorem axis_config_rejected_when_unset (b : Builder) (v : Int)
    (h : b.abs = none) :
    Builder.max b v = none ∧ Builder.min b v = none ∧
    Builder.fuzz b v = none ∧ Builder.flat b v = none ∧
    (Builder.openB 3).abs = none := by
  simp [Builder.max, Builder.min, Builder.fuzz, Builder.flat, Builder.openB, h]

/-- Witness for C1 at the just-opened builder on fd 3. -/
theorem axis_config_rejected_when_unset_witness :
    Builder.max (Builder.openB 3) 10 = none ∧
    Builder.min (Builder.openB 3) 10 = none ∧
    Builder.fuzz (Builder.openB 3) 10 = none ∧
    Builder.flat (Builder.openB 3) 10 = none :=
  let h := axis_config_rejected_when_unset (Builder.openB 3) 10 rfl
  ⟨h.1, h.2.1, h.2.2.1, h.2.2.2.1⟩

/-- **C9.** A device lifetime — any sequence of sends, some possibly
failing, followed by the `Drop` impl — contains exactly one
`ui_dev_destroy` call: never zero, never two. -/
theorem device_lifetime_one_destroy (env : Env) (d : Device)
    (cmds : List (Int × Int × Int)) :
    destroyCount (Device.lifetime env d cmds) = 1 := by
  have happ : ∀ a b : Trace,
      destroyCount (a ++ b) = destroyCount a + destroyCount b := by
    intro a b
    simp [destroyCount, List.countP_append]
  have hrun : ∀ (cs : List (Int × Int × Int)) (t : Trace),
      destroyCount (Device.runSends env d cs t) = destroyCount t := by
    intro cs
    induction cs with
    | nil => intro t; rfl
    | cons hd tl ih =>
      intro t
      obtain ⟨k, c, v⟩ := hd
      rw [Device.runSends, ih]
      show destroyCount (t ++ [_]) = _
      rw [happ]
      rfl
  rw [Device.lifetime, happ, hrun cmds []]
  rfl

/-- **C10.** `Device::write` (hence `send`, `press`, `release`,
`position`, `synchronize`) emits a record whose kind and code are the
given integers reduced mod 2^16 (`as u16` wraps, it does not reject) and
whose value is passed through unmodified; the outcome of the call does
not depend on the magnitudes. -/
theorem write_wraps_kind_code (env : Env) (d : Device)
    (kind code value : Int) (t : Trace) :
    (Device.write env d kind code value t).2
      = t ++ [Syscall.writeRecord d.fd (kind % 65536) (code % 65536) value] ∧
    (env.res t.length = none →
      (Device.write env d kind code value t).1 = Except.ok ()) := by
  constructor
  · rfl
  · intro h
    simp [Device.write, issue, h]

/-- Witness for C10: kind 70000 wraps to 4464, code -1 wraps to 65535,
value 5 is unchanged, and the write succeeds. -/
theorem write_wraps_kind_code_witness :
    (Device.write envOK dev0 70000 (-1) 5 []).2
      = [Syscall.writeRecord 3 4464 65535 5] ∧
    (Device.write envOK dev0 70000 (-1) 5 []).1 = Except.ok () := by
  have h := write_wraps_kind_code envOK dev0 70000 (-1) 5 []
  refine ⟨?_, h.2 rfl⟩
  rw [h.1]
  decide

/-- **C8.** When the press write succeeds, `click` issues exactly two
writes — value 1 then value 0, nothing interleaved — and if the release
write then fails, its error is surfaced with no compensating write. -/
theorem click_press_then_release (env : Env) (d : Device) (e : Int × Int)
    (t : Trace) (h1 : env.res t.length = none) :
    (Device.click env d e t).2
      = t ++ [Syscall.writeRecord d.fd (e.1 % 65536) (e.2 % 65536) 1,
              Syscall.writeRecord d.fd (e.1 % 65536) (e.2 % 65536) 0] ∧
    (env.res (t.length + 1) = none →
      (Device.click env d e t).1 = Except.ok ()) ∧
    (∀ er, env.res (t.length + 1) = some er →
      (Device.click env d e t).1 = Except.error (Err.errno er)) := by
  have hlen : (t ++ [Syscall.writeRecord d.fd (e.1 % 65536) (e.2 % 65536) 1]).length
      = t.length + 1 := by simp
  refine ⟨?_, ?_, ?_⟩
  · simp only [Device.click, Device.press, Device.release, Device.write, issue, h1, hlen]
    cases h2 : env.res (t.length + 1) <;> simp
  · intro h2
    simp only [Device.click, Device.press, Device.release, Device.write, issue, h1, hlen, h2]
  · intro er h2
    simp only [Device.click, Device.press, Device.release, Device.write, issue, h1, hlen, h2]

/-- Witness for C8 on fd 3 with the (EV_KEY, 272) button: both writes
succeed and the trace is exactly press-then-release. -/
theorem click_press_then_release_witness :
    (Device.click envOK dev0 (1, 272) []).2
      = [Syscall.writeRecord 3 1 272 1, Syscall.writeRecord 3 1 272 0] ∧
    (Device.click envOK dev0 (1, 272) []).1 = Except.ok () := by
  have h := click_press_then_release envOK dev0 (1, 272) [] rfl
  refine ⟨?_, h.2.1 rfl⟩
  rw [h.1]
  decide

/-- The scenario of `examples/mouse.rs`: `send(X, 50)`, `send(Y, 50)`,
`synchronize()`, each chained on the success of the one before. -/
def mouseScenario (env : Env) (d : Device) : Except Err Unit × Trace :=
  match Device.send env d (EV_REL, REL_X) 50 [] with
  | (Except.ok _, t1) =>
    match Device.send env d (EV_REL, REL_Y) 50 t1 with
    | (Except.ok _, t2) => Device.synchronize env d t2
    | (Except.error e1, t2) => (Except.error e1, t2)
  | (Except.error e1, t1) => (Except.error e1, t1)

/-- **C7.** When the three writes succeed, `send(X, 50); send(Y, 50);
synchronize()` emits exactly three records — `(EV_REL, REL_X, 50)`,
`(EV_REL, REL_Y, 50)`, `(EV_SYN, SYN_REPORT, 0)` — in that order with
nothing interleaved. -/
theorem mouse_scenario_three_records (env : Env) (d : Device)
    (h0 : env.res 0 = none) (h1 : env.res 1 = none) (h2 : env.res 2 = none) :
    mouseScenario env d
      = (Except.ok (), [Syscall.writeRecord d.fd EV_REL REL_X 50,
                        Syscall.writeRecord d.fd EV_REL REL_Y 50,
                        Syscall.writeRecord d.fd EV_SYN SYN_REPORT 0]) := by
  simp only [mouseScenario, Device.send, Device.synchronize, Device.write, issue]
  norm_num [h0, h1, h2, EV_REL, REL_X, REL_Y, EV_SYN, SYN_REPORT]

/-- Witness for C7 on fd 3 with the all-success environment. -/
theorem mouse_scenario_three_records_witness :
    mouseScenario envOK dev0
      = (Except.ok (), [Syscall.writeRecord 3 2 0 50,
                        Syscall.writeRecord 3 2 1 50,
                        Syscall.writeRecord 3 0 0 0]) := by
  rw [mouse_scenario_three_records envOK dev0 rfl rfl rfl]
  rfl

/-- The axis-configuration scenario: open a builder on `fd`, register an
`Absolute` event for axis `a` (kind `k`), then `max(10)`, `min(-10)`,
`fuzz(1)`, `flat(0)`.  `none` models either a failed registration or an
axis-configuration panic. -/
def absScenario (env : Env) (fd k a : Int) : Option Builder :=
  match (Builder.event env [] [] (Event.absolute k a) (Builder.openB fd) []).1 with
  | Except.ok b1 =>
    (Builder.max b1 10).bind fun b2 =>
      (Builder.min b2 (-10)).bind fun b3 =>
        (Builder.fuzz b3 1).bind fun b4 => Builder.flat b4 0
  | Except.error _ => none

/-- **C6.** After a successful `Absolute` registration for axis `a`
followed by `max(10)`, `min(-10)`, `fuzz(1)`, `flat(0)`, the descriptor's
four arrays hold exactly 10, -10, 1, 0 at index `a`, and any other index
`j` still holds the zero default in all four arrays. -/
theorem abs_axis_config_targets_axis (env : Env) (fd k a j : Int)
    (hj : j ≠ a) (h0 : env.res 0 = none) (h1 : env.res 1 = none) :
    (absScenario env fd k a).map (fun b =>
        (b.defn.absmax a, b.defn.absmin a, b.defn.absfuzz a, b.defn.absflat a,
         b.defn.absmax j, b.defn.absmin j, b.defn.absfuzz j, b.defn.absflat j))
      = some (10, -10, 1, 0, 0, 0, 0, 0) := by
  simp [absScenario, Builder.event, issue, h0, h1, Builder.openB, zeroDev,
        Builder.max, Builder.min, Builder.fuzz, Builder.flat, hj]

/-- Witness for C6: fd 3, kind `EV_ABS`, axis 0, other index 1. -/
theorem abs_axis_config_targets_axis_witness :
    (absScenario envOK 3 EV_ABS 0).map (fun b =>
        (b.defn.absmax 0, b.defn.absmin 0, b.defn.absfuzz 0, b.defn.absflat 0,
         b.defn.absmax 1, b.defn.absmin 1, b.defn.absfuzz 1, b.defn.absflat 1))
      = some (10, -10, 1, 0, 0, 0, 0, 0) :=
  abs_axis_config_targets_axis envOK 3 EV_ABS 0 1 (by decide) rfl rfl

/-- The value `Builder::event` leaves in the `abs` field on success:
`Some(code)` for an `Absolute` registration, `None` for everything
else. -/
def eventAbsTarget : Event → Option Int
  | Event.absolute _ c => some c
  | _ => none

/-- A successful concrete key/button registration leaves `abs` unset. -/
theorem eventKeyLike_ok_abs (env : Env) (p : Int × Int) (b b2 : Builder)
    (t : Trace) (h : (eventKeyLike env p b t).1 = Except.ok b2) :
    b2.abs = none := by
  unfold eventKeyLike at h
  cases hr : env.res t.length with
  | none =>
    simp only [hr] at h
    cases hr2 : env.res (t ++ [Syscall.setEvbit b.fd p.1]).length with
    | none =>
      simp only [hr2] at h
      simp at h
      subst h
      rfl
    | some e =>
      simp only [hr2] at h
      simp at h
  | some e =>
    simp only [hr] at h
    simp at h

/-- A successful `All`-expansion loop starting with `abs` unset leaves
`abs` unset. -/
theorem eventList_ok_abs (env : Env) (l : List (Int × Int)) (b b2 : Builder)
    (t : Trace) (hb : b.abs = none)
    (h : (eventList env l b t).1 = Except.ok b2) : b2.abs = none := by
  induction l generalizing b t with
  | nil =>
    unfold eventList at h
    simp at h
    rw [← h, hb]
  | cons p rest ih =>
    unfold eventList at h
    cases hk : eventKeyLike env p b t with
    | mk r1 t1 =>
      cases r1 with
      | ok b1 =>
        rw [hk] at h
        simp at h
        exact ih b1 t1 (by
          have := eventKeyLike_ok_abs env p b b1 t (by rw [hk])
          exact this) h
      | error e1 =>
        rw [hk] at h
        simp at h

/-- Counterexample to C2 as stated: `bus` is a builder operation other
than an absolute-event registration, yet on a builder whose configured
axis is 5 it leaves the field at `Some(5)` instead of clearing it. -/
theorem bus_does_not_clear_abs :
    (Builder.bus b5 7).abs = some 5 ∧ some (5 : Int) ≠ (none : Option Int) := by
  constructor
  · rfl
  · decide

/-- **C2 (amended).** `event` is the only operation that touches the
configured-axis field: on success it leaves `Some(code)` for an
`Absolute` registration and `None` for every other variant; all other
builder operations (`name`, `bus`, `vendor`, `product`, `version`,
`max`, `min`, `fuzz`, `flat`) leave the field unchanged — they do not
clear it. -/
theorem abs_field_discipline :
    (∀ (b : Builder) (v : Nat),
      (Builder.bus b v).abs = b.abs ∧ (Builder.vendor b v).abs = b.abs ∧
      (Builder.product b v).abs = b.abs ∧ (Builder.version b v).abs = b.abs) ∧
    (∀ (b : Builder) (value : List Nat) (b2 : Builder),
      Builder.name b value = Except.ok b2 → b2.abs = b.abs) ∧
    (∀ (b : Builder) (v : Int) (b2 : Builder),
      Builder.max b v = some b2 → b2.abs = b.abs) ∧
    (∀ (b : Builder) (v : Int) (b2 : Builder),
      Builder.min b v = some b2 → b2.abs = b.abs) ∧
    (∀ (b : Builder) (v : Int) (b2 : Builder),
      Builder.fuzz b v = some b2 → b2.abs = b.abs) ∧
    (∀ (b : Builder) (v : Int) (b2 : Builder),
      Builder.flat b v = some b2 → b2.abs = b.abs) ∧
    (∀ (env : Env) (kb ctl : List (Int × Int)) (e : Event) (b : Builder)
        (t : Trace) (b2 : Builder),
      (Builder.event env kb ctl e b t).1 = Except.ok b2 →
      b2.abs = eventAbsTarget e) := by
  refine ⟨fun b v => ⟨rfl, rfl, rfl, rfl⟩, ?_, ?_, ?_, ?_, ?_, ?_⟩
  · intro b value b2 h
    unfold Builder.name at h
    split at h
    · cases h
    · by_cases hlen : UINPUT_MAX_NAME_SIZE < value.length + 1
      · simp [hlen] at h
      · simp [hlen] at h
        subst h
        rfl
  · intro b v b2 h
    cases hb : b.abs with
    | none => rw [Builder.max, hb] at h; cases h
    | some a =>
      rw [Builder.max, hb] at h
      simp at h
      subst h
      rfl
  · intro b v b2 h
    cases hb : b.abs with
    | none => rw [Builder.min, hb] at h; cases h
    | some a =>
      rw [Builder.min, hb] at h
      simp at h
      subst h
      rfl
  · intro b v b2 h
    cases hb : b.abs with
    | none => rw [Builder.fuzz, hb] at h; cases h
    | some a =>
      rw [Builder.fuzz, hb] at h
      simp at h
      subst h
      rfl
  · intro b v b2 h
    cases hb : b.abs with
    | none => rw [Builder.flat, hb] at h; cases h
    | some a =>
      rw [Builder.flat, hb] at h
      simp at h
      subst h
      rfl
  · intro env kb ctl e b t b2 h
    cases e with
    | all =>
      rw [Builder.event] at h
      cases hk : eventList env kb { b with abs := none } t with
      | mk r1 t1 =>
        cases r1 with
        | ok b1 =>
          rw [hk] at h
          have hb1 : b1.abs = none :=
            eventList_ok_abs env kb _ b1 t rfl (by rw [hk])
          exact eventList_ok_abs env ctl b1 b2 t1 hb1 h
        | error e1 => rw [hk] at h; cases h
    | keyboard k =>
      cases k with
      | all =>
        rw [Builder.event] at h
        exact eventList_ok_abs env kb _ b2 t rfl h
      | key kk cc =>
        rw [Builder.event] at h
        exact eventKeyLike_ok_abs env (kk, cc) _ b2 t h
    | controller c =>
      cases c with
      | all =>
        rw [Builder.event] at h
        exact eventList_ok_abs env ctl _ b2 t rfl h
      | btn kk cc =>
        rw [Builder.event] at h
        exact eventKeyLike_ok_abs env (kk, cc) _ b2 t h
    | relative kk cc =>
      rw [Builder.event] at h
      cases hr : env.res t.length with
      | none =>
        simp only [hr] at h
        cases hr2 : env.res (t ++ [Syscall.setEvbit b.fd kk]).length with
        | none =>
          simp only [hr2] at h
          simp at h
          subst h
          rfl
        | some e1 =>
          simp only [hr2] at h
          simp at h
      | some e1 =>
        simp only [hr] at h
        simp at h
    | absolute kk cc =>
      rw [Builder.event] at h
      cases hr : env.res t.length with
      | none =>
        simp only [hr] at h
        cases hr2 : env.res (t ++ [Syscall.setEvbit b.fd kk]).length with
        | none =>
          simp only [hr2] at h
          simp at h
          subst h
          rfl
        | some e1 =>
          simp only [hr2] at h
          simp at h
      | some e1 =>
        simp only [hr] at h
        simp at h

/-- The builder produced by a successful non-absolute registration on
`b5`: the axis field is cleared. -/
def bRel : Builder := { b5 with abs := none }

/-- The builder produced by a successful `Absolute` registration for
axis 4 on `b5`. -/
def bAbs : Builder := { b5 with abs := some 4 }

/-- The builder produced by `max(9)` on `b5`: the axis field survives. -/
def bMax : Builder := { b5 with defn := { b5.defn with
  absmax := fun i => if i = 5 then 9 else b5.defn.absmax i } }

/-- Witness for the amended C2: on `b5` (axis 5 configured), `bus` and
`max` keep the field at `Some(5)`, a relative registration leaves `None`,
and an absolute registration for axis 4 leaves `Some(4)`. -/
theorem abs_field_discipline_witness :
    (Builder.bus b5 7).abs = some 5 ∧ bMax.abs = some 5 ∧
    bRel.abs = none ∧ bAbs.abs = some 4 := by
  have h := abs_field_discipline
  refine ⟨(h.1 b5 7).1, h.2.2.1 b5 9 bMax rfl, ?_, ?_⟩
  · exact h.2.2.2.2.2.2 envOK [] [] (Event.relative 2 0) b5 [] bRel rfl
  · exact h.2.2.2.2.2.2 envOK [] [] (Event.absolute 3 4) b5 [] bAbs rfl

/-- Counterexample to C3 as stated: with the descriptor write failing,
`create` on the fd-3 builder returns the error — but the drop path
issues no `close` call at all (`Builder` has no `Drop` impl and its fd
is a plain `c_int`), so the claim that the drop path closes the handle
is false. -/
theorem create_failure_close_never_issued :
    (Builder.create envFail b5 []).1 = Except.error (Err.errno 5) ∧
    Syscall.closeCall 3 ∉ (Builder.create envFail b5 []).2 ++ Builder.dropRun b5 := by
  constructor
  · rfl
  · decide

/-- **C3 (amended).** If `create` fails at either step, no `Device` is
returned and the only calls issued are the descriptor write (and
possibly the failed `ui_dev_create`); the subsequent `Builder` drop path
issues no call at all — in particular no `ui_dev_destroy`, but also no
`close`: the handle is simply leaked. -/
theorem create_failure_no_device_no_destroy (env : Env) (b : Builder)
    (t : Trace) (e : Err) (h : (Builder.create env b t).1 = Except.error e) :
    (∀ d, (Builder.create env b t).1 ≠ Except.ok d) ∧
    ((Builder.create env b t).2 = t ++ [Syscall.writeDescriptor b.fd] ∨
     (Builder.create env b t).2
       = t ++ [Syscall.writeDescriptor b.fd, Syscall.devCreate b.fd]) ∧
    Builder.dropRun b = [] := by
  refine ⟨fun d hd => ?_, ?_, rfl⟩
  · rw [h] at hd
    cases hd
  unfold Builder.create at h ⊢
  cases hr : env.res t.length with
  | none =>
    simp only [hr]
    cases hr2 : env.res (t ++ [Syscall.writeDescriptor b.fd]).length with
    | none =>
      simp only [hr, hr2] at h
      simp at h
    | some e2 =>
      simp only [hr2]
      simp
  | some e2 =>
    simp only [hr]
    simp

/-- Witness for the amended C3: descriptor write fails with errno 5 on
the fd-3 builder; only the descriptor write was issued and the drop path
is empty. -/
theorem create_failure_no_device_no_destroy_witness :
    ((Builder.create envFail b5 []).2 = [] ++ [Syscall.writeDescriptor 3] ∨
     (Builder.create envFail b5 []).2
       = [] ++ [Syscall.writeDescriptor 3, Syscall.devCreate 3]) ∧
    Builder.dropRun b5 = [] := by
  have h := create_failure_no_device_no_destroy envFail b5 [] (Err.errno 5) rfl
  exact ⟨h.2.1, h.2.2⟩

/-- Whether a `name` call succeeded. -/
def nameOk (r : Except Err Builder) : Bool :=
  match r with
  | Except.ok _ => true
  | Except.error _ => false

/-- Counterexample to C4 as stated: the two-byte value `[97, 0]` has
null-terminated encoded length 3 ≤ 80, yet `name` rejects it — the
interior NUL makes `CString::new` fail before the length is even
checked. -/
theorem name_rejects_short_interior_nul :
    nameOk (Builder.name (Builder.openB 3) [97, 0]) = false ∧
    [97, 0].length + 1 ≤ UINPUT_MAX_NAME_SIZE := by
  constructor
  · rfl
  · decide

/-- **C4 (amended).** `name(value)` succeeds iff the value has no
interior NUL byte and its null-terminated encoded length is at most
`UINPUT_MAX_NAME_SIZE` (80): exactly at capacity succeeds, one byte over
fails. -/
theorem name_ok_iff (b : Builder) (value : List Nat) :
    nameOk (Builder.name b value) = true ↔
      0 ∉ value ∧ value.length + 1 ≤ UINPUT_MAX_NAME_SIZE := by
  unfold Builder.name
  by_cases h0 : 0 ∈ value <;>
    by_cases hlen : UINPUT_MAX_NAME_SIZE < value.length + 1 <;>
      simp [h0, hlen, nameOk] <;> omega

/-- Witness for the amended C4 at the boundary: a 79-byte NUL-free value
(encoded length 80) succeeds, an 80-byte one (encoded length 81) fails. -/
theorem name_ok_iff_witness :
    nameOk (Builder.name (Builder.openB 3) (List.replicate 79 1)) = true ∧
    nameOk (Builder.name (Builder.openB 3) (List.replicate 80 1)) = false := by
  constructor
  · exact (name_ok_iff (Builder.openB 3) (List.replicate 79 1)).mpr
      ⟨by decide, by decide⟩
  · cases hb : nameOk (Builder.name (Builder.openB 3) (List.replicate 80 1)) with
    | false => rfl
    | true =>
      have h := (name_ok_iff (Builder.openB 3) (List.replicate 80 1)).mp hb
      exact absurd h.2 (by decide)

/-- The two registration calls a concrete key/button code costs:
`ui_set_evbit` for its kind, `ui_set_keybit` for its code. -/
def regPair (fd : Int) (p : Int × Int) : Trace :=
  [Syscall.setEvbit fd p.1, Syscall.setKeybit fd p.2]

/-- The registration calls for a whole enumeration, in order. -/
def regsOf (fd : Int) : List (Int × Int) → Trace
  | [] => []
  | p :: l => regPair fd p ++ regsOf fd l

/-- Extract the code of a `ui_set_keybit` call. -/
def keybitCode : Syscall → Option Int
  | Syscall.setKeybit _ c => some c
  | _ => none

theorem filterMap_keybitCode_regsOf (fd : Int) (l : List (Int × Int)) :
    (regsOf fd l).filterMap keybitCode = l.map Prod.snd := by
  induction l with
  | nil => rfl
  | cons p rest ih =>
    simp [regsOf, regPair, List.filterMap_append, List.filterMap_cons,
          keybitCode, ih]

theorem eventKeyLike_eq_ok (env : Env) (p : Int × Int) (b : Builder)
    (t : Trace) (hr : env.res t.length = none)
    (hr2 : env.res (t.length + 1) = none) :
    eventKeyLike env p b t
      = (Except.ok { b with abs := none }, t ++ regPair b.fd p) := by
  unfold eventKeyLike
  simp [hr, hr2, regPair]

theorem eventKeyLike_eq_err1 (env : Env) (p : Int × Int) (b : Builder)
    (t : Trace) (e : Int) (hr : env.res t.length = some e) :
    eventKeyLike env p b t
      = (Except.error (Err.errno e), t ++ [Syscall.setEvbit b.fd p.1]) := by
  unfold eventKeyLike
  simp [hr]

theorem eventKeyLike_eq_err2 (env : Env) (p : Int × Int) (b : Builder)
    (t : Trace) (e : Int) (hr : env.res t.length = none)
    (hr2 : env.res (t.length + 1) = some e) :
    eventKeyLike env p b t
      = (Except.error (Err.errno e), t ++ regPair b.fd p) := by
  unfold eventKeyLike
  simp [hr, hr2, regPair]

theorem eventList_cons_ok (env : Env) (p : Int × Int)
    (rest : List (Int × Int)) (b : Builder) (t : Trace) (b1 : Builder)
    (t1 : Trace) (hk : eventKeyLike env p b t = (Except.ok b1, t1)) :
    eventList env (p :: rest) b t = eventList env rest b1 t1 := by
  rw [eventList, hk]

theorem eventList_cons_err (env : Env) (p : Int × Int)
    (rest : List (Int × Int)) (b : Builder) (t : Trace) (e1 : Err)
    (t1 : Trace) (hk : eventKeyLike env p b t = (Except.error e1, t1)) :
    eventList env (p :: rest) b t = (Except.error e1, t1) := by
  rw [eventList, hk]

/-- On success, the `All` loop's trace extension is exactly the full
enumeration's registrations in order. -/
theorem eventList_ok_trace (env : Env) : ∀ (l : List (Int × Int))
    (b : Builder) (t : Trace) (b2 : Builder),
    (eventList env l b t).1 = Except.ok b2 →
    (eventList env l b t).2 = t ++ regsOf b.fd l := by
  intro l
  induction l with
  | nil =>
    intro b t b2 h
    simp [eventList, regsOf]
  | cons p rest ih =>
    intro b t b2 h
    cases hr : env.res t.length with
    | some e =>
      rw [eventList_cons_err env p rest b t _ _
        (eventKeyLike_eq_err1 env p b t e hr)] at h
      cases h
    | none =>
      cases hr2 : env.res (t.length + 1) with
      | some e =>
        rw [eventList_cons_err env p rest b t _ _
          (eventKeyLike_eq_err2 env p b t e hr hr2)] at h
        cases h
      | none =>
        have hk := eventKeyLike_eq_ok env p b t hr hr2
        rw [eventList_cons_ok env p rest b t _ _ hk] at h ⊢
        rw [ih _ _ _ h]
        simp [regsOf]

/-- On failure, the `All` loop stops at the failing code: the trace
extension covers a strict prefix of the enumeration plus the partial
registration of the failing code, and nothing after it. -/
theorem eventList_err_trace (env : Env) : ∀ (l : List (Int × Int))
    (b : Builder) (t : Trace) (e1 : Err),
    (eventList env l b t).1 = Except.error e1 →
    ∃ pre p suf, l = pre ++ p :: suf ∧
      ((eventList env l b t).2
          = t ++ regsOf b.fd pre ++ [Syscall.setEvbit b.fd p.1] ∨
       (eventList env l b t).2 = t ++ regsOf b.fd pre ++ regPair b.fd p) := by
  intro l
  induction l with
  | nil =>
    intro b t e1 h
    simp [eventList] at h
  | cons p rest ih =>
    intro b t e1 h
    cases hr : env.res t.length with
    | some e =>
      have hk := eventKeyLike_eq_err1 env p b t e hr
      rw [eventList_cons_err env p rest b t _ _ hk] at h ⊢
      refine ⟨[], p, rest, rfl, Or.inl ?_⟩
      simp [regsOf]
    | none =>
      cases hr2 : env.res (t.length + 1) with
      | some e =>
        have hk := eventKeyLike_eq_err2 env p b t e hr hr2
        rw [eventList_cons_err env p rest b t _ _ hk] at h ⊢
        refine ⟨[], p, rest, rfl, Or.inr ?_⟩
        simp [regsOf]
      | none =>
        have hk := eventKeyLike_eq_ok env p b t hr hr2
        rw [eventList_cons_ok env p rest b t _ _ hk] at h ⊢
        obtain ⟨pre, q, suf, hl, hor⟩ := ih _ _ _ h
        refine ⟨p :: pre, q, suf, by simp [hl], ?_⟩
        cases hor with
        | inl h1 =>
          refine Or.inl ?_
          rw [h1]
          simp [regsOf]
        | inr h1 =>
          refine Or.inr ?_
          rw [h1]
          simp [regsOf]

/-- **C5.** Registering an "all \<class\>" pseudo-variant walks exactly
the class's full enumeration in order: on success the issued
registrations are the enumeration's, in its fixed order, and the
registered key codes are exactly the enumeration's codes (duplicate-free
whenever the enumeration is); on any individual failure the whole
operation fails at once and no later code of the enumeration is
registered.  `Keyboard::All` / `Controller::All` dispatch to exactly
this loop over their class enumeration. -/
theorem all_class_expansion (env : Env) (l : List (Int × Int))
    (b : Builder) (t : Trace) :
    (∀ b2, (eventList env l b t).1 = Except.ok b2 →
      (eventList env l b t).2 = t ++ regsOf b.fd l ∧
      (regsOf b.fd l).filterMap keybitCode = l.map Prod.snd ∧
      ((l.map Prod.snd).Nodup →
        ((regsOf b.fd l).filterMap keybitCode).Nodup)) ∧
    (∀ e1, (eventList env l b t).1 = Except.error e1 →
      ∃ pre p suf, l = pre ++ p :: suf ∧
        ((eventList env l b t).2
            = t ++ regsOf b.fd pre ++ [Syscall.setEvbit b.fd p.1] ∨
         (eventList env l b t).2 = t ++ regsOf b.fd pre ++ regPair b.fd p)) ∧
    (∀ kb ctl, Builder.event env kb ctl (Event.keyboard Keyboard.all) b t
        = eventList env kb { b with abs := none } t) ∧
    (∀ kb ctl,
      Builder.event env kb ctl (Event.controller Controller.all) b t
        = eventList env ctl { b with abs := none } t) := by
  refine ⟨?_, ?_, fun kb ctl => rfl, fun kb ctl => rfl⟩
  · intro b2 h
    refine ⟨eventList_ok_trace env l b t b2 h,
      filterMap_keybitCode_regsOf b.fd l, ?_⟩
    intro hnd
    rw [filterMap_keybitCode_regsOf]
    exact hnd
  · intro e1 h
    exact eventList_err_trace env l b t e1 h

/-- Witness for C5: a two-code enumeration on the fd-3 builder, all
calls succeeding — the trace is the two registration pairs in order and
the registered codes are the duplicate-free `[30, 48]`. -/
theorem all_class_expansion_witness :
    (eventList envOK [(1, 30), (1, 48)] b5 []).2
      = [] ++ regsOf 3 [(1, 30), (1, 48)] ∧
    (regsOf 3 [(1, 30), (1, 48)]).filterMap keybitCode = [30, 48] ∧
    ((regsOf 3 [(1, 30), (1, 48)]).filterMap keybitCode).Nodup := by
  have h := (all_class_expansion envOK [(1, 30), (1, 48)] b5 []).1 bRel rfl
  exact ⟨h.1, h.2.1, h.2.2 (by decide)⟩

end Uinput
